import Mathlib

/-!
# yumo-img-caption: the image fitting loop, the data URI and the glue in `main`

A shallow embedding of `utils.go`, `main.go` and `domain.go`.

* Go strings are `String`; `[]rune` is `List Char`; `[]byte` is `List Byte`.
* Go `int` / `int64` values are `Int`; the one subtraction that can leave the
  64-bit range (`length - scope`) is wrapped explicitly with `wrap64`.
* The image codec (`image.Decode`, `jpeg.Encode`, `png.Encode`), the file
  system (`os.ReadFile`) and `json.Unmarshal` are library code: they are
  parameters of the embedding.
* The calls made to the codec are recorded in order, so that statements such
  as "no decode is attempted" or "nine encode attempts" can be expressed.
-/

namespace YumoImgCaption

/-! ## Bytes and `encoding/base64` (StdEncoding) -/

/-- One octet. -/
abbrev Byte := Fin 256

/-- The alphabet of `base64.StdEncoding`. -/
def encodeStd : String :=
  "ABCDEFGHIJKLMNOPQRSTUVWXYZabcdefghijklmnopqrstuvwxyz0123456789+/"

/-- The padding character of `base64.StdEncoding`. -/
def StdPadding : Char := '='

/-- The character for a 6-bit value: `enc.encode[v & 0x3F]`. -/
def encodeSextet (v : Nat) : Char :=
  encodeStd.data.getD (v % 64) 'A'

/-- The body of `(*Encoding).Encode`: whole 3-byte groups become 4 characters
through `val := a<<16 | b<<8 | c`; a remainder of 1 or 2 bytes becomes 2 or 3
characters followed by padding. -/
def encodeChars : List Byte → List Char
  | [] => []
  | [a] =>
    let val := a.val * 65536
    [encodeSextet (val / 262144), encodeSextet (val / 4096), StdPadding, StdPadding]
  | [a, b] =>
    let val := a.val * 65536 + b.val * 256
    [encodeSextet (val / 262144), encodeSextet (val / 4096), encodeSextet (val / 64),
      StdPadding]
  | a :: b :: c :: rest =>
    let val := a.val * 65536 + b.val * 256 + c.val
    encodeSextet (val / 262144) :: encodeSextet (val / 4096) :: encodeSextet (val / 64)
      :: encodeSextet val :: encodeChars rest

/-- The function `base64.StdEncoding.EncodeToString`. -/
def EncodeToString (src : List Byte) : String :=
  ⟨encodeChars src⟩

/-- The 6-bit value of an alphabet character (the decode map of the standard
alphabet); `none` for any other character. -/
def decodeSextet (c : Char) : Option Nat :=
  let i := encodeStd.data.indexOf c
  if i < 64 then some i else none

/-- The low octet of a natural number. -/
def toByte (n : Nat) : Byte :=
  ⟨n % 256, Nat.mod_lt _ (by decide)⟩

/-- Standard padded base64 decoding (RFC 4648 section 4): input is read in
groups of four characters; only the last group may end in one or two padding
characters; anything else fails. The repository only encodes; this inverse is
what the round-trip law is stated against. -/
def decodeChars : List Char → Option (List Byte)
  | [] => some []
  | [c0, c1, c2, c3] =>
    match decodeSextet c0, decodeSextet c1 with
    | some v0, some v1 =>
      if c2 = StdPadding ∧ c3 = StdPadding then
        some [toByte ((v0 * 262144 + v1 * 4096) / 65536)]
      else if c3 = StdPadding then
        match decodeSextet c2 with
        | some v2 =>
          let val := v0 * 262144 + v1 * 4096 + v2 * 64
          some [toByte (val / 65536), toByte (val / 256)]
        | none => none
      else
        match decodeSextet c2, decodeSextet c3 with
        | some v2, some v3 =>
          let val := v0 * 262144 + v1 * 4096 + v2 * 64 + v3
          some [toByte (val / 65536), toByte (val / 256), toByte val]
        | _, _ => none
    | _, _ => none
  | c0 :: c1 :: c2 :: c3 :: rest =>
    match decodeSextet c0, decodeSextet c1, decodeSextet c2, decodeSextet c3,
        decodeChars rest with
    | some v0, some v1, some v2, some v3, some tail =>
      let val := v0 * 262144 + v1 * 4096 + v2 * 64 + v3
      some (toByte (val / 65536) :: toByte (val / 256) :: toByte val :: tail)
    | _, _, _, _, _ => none
  | _ => none

/-- Decoding of a base64 string. -/
def DecodeString (s : String) : Option (List Byte) :=
  decodeChars s.data

/-! ## `path/filepath.Ext` -/

/-- The backwards scan of `filepath.Ext`, on the reversed path: stop with no
extension at a path separator, stop at the first dot and return from it on. -/
def extScan : List Char → List Char → List Char
  | [], _ => []
  | c :: before, after =>
    if c = '/' then []
    else if c = '.' then '.' :: after
    else extScan before (c :: after)

/-- The function `filepath.Ext` (with `/` as the path separator): the suffix of
the last path element that starts at its final dot, or the empty string. -/
def Ext (path : String) : String :=
  ⟨extScan path.data.reverse []⟩

/-! ## `ImagecompressionAndencoding` -/

/-- The image library as the function uses it: `image.Decode`, `jpeg.Encode`
with a quality, `png.Encode`. Each may fail with a message. -/
structure Codec (Img : Type) where
  decode : List Byte → Except String Img
  jpegEncode : Img → Int → Except String (List Byte)
  pngEncode : Img → Except String (List Byte)

/-- The function `jpeg.Encode` as the loop calls it, writing into a fresh
`bytes.Buffer`: the encoder refuses an image only for its bounds, before it
reads the quality, and a write into the buffer does not fail; an image that is
not refused yields the bytes for the quality. -/
structure JpegEncoder (Img : Type) where
  refuses : Img → Option String
  bytes : Img → Int → List Byte

/-- The call `jpeg.Encode(&buf, img, &jpeg.Options{Quality: quality})`. -/
def JpegEncoder.Encode {Img : Type} (jpeg : JpegEncoder Img) (img : Img) (quality : Int) :
    Except String (List Byte) :=
  match jpeg.refuses img with
  | some e => .error e
  | none => .ok (jpeg.bytes img quality)

/-- A call made to the image library. -/
inductive CodecCall where
  | decode
  | jpegEncode (quality : Int)
  | pngEncode
  deriving DecidableEq, Repr

/-- The errors `ImagecompressionAndencoding` returns, one per `fmt.Errorf`. -/
inductive FitError where
  | readFailed (cause : String)
  | unsupportedFormat (ext : String)
  | decodeFailed (cause : String)
  | encodeFailed (cause : String)
  | budgetExceeded (maxSize : Int)
  deriving DecidableEq, Repr

/-- The message of each error, as formatted by `fmt.Errorf`. -/
def FitError.message : FitError → String
  | .readFailed cause => "读取图片文件失败: " ++ cause
  | .unsupportedFormat ext => "不支持的图片格式: " ++ ext
  | .decodeFailed cause => "解码图片失败: " ++ cause
  | .encodeFailed cause => "图片编码失败: " ++ cause
  | .budgetExceeded maxSize => "无法将图片压缩到 " ++ toString maxSize ++ " 字节以下"

/-- What a run of `ImagecompressionAndencoding` did: the codec calls in order,
and the returned `(string, error)` pair. -/
structure FitRun where
  calls : List CodecCall
  result : Except FitError String

/-- The `for quality > 5` loop, entered with the current `quality`. Each pass
encodes by extension, returns on an encode error, returns the data URI when the
buffer fits, and otherwise continues with `quality - 10`. -/
def qualityLoop {Img : Type} (codec : Codec Img) (ext pre : String) (img : Img)
    (maxSize : Int) (quality : Int) : FitRun :=
  if _h : 5 < quality then
    if ext = ".jpg" ∨ ext = ".jpeg" then
      match codec.jpegEncode img quality with
      | .error e => ⟨[.jpegEncode quality], .error (.encodeFailed e)⟩
      | .ok compressedData =>
        if (compressedData.length : Int) ≤ maxSize then
          ⟨[.jpegEncode quality], .ok (pre ++ EncodeToString compressedData)⟩
        else
          let next := qualityLoop codec ext pre img maxSize (quality - 10)
          ⟨.jpegEncode quality :: next.calls, next.result⟩
    else if ext = ".png" then
      match codec.pngEncode img with
      | .error e => ⟨[.pngEncode], .error (.encodeFailed e)⟩
      | .ok compressedData =>
        if (compressedData.length : Int) ≤ maxSize then
          ⟨[.pngEncode], .ok (pre ++ EncodeToString compressedData)⟩
        else
          let next := qualityLoop codec ext pre img maxSize (quality - 10)
          ⟨.pngEncode :: next.calls, next.result⟩
    else
      ⟨[], .error (.unsupportedFormat ext)⟩
  else
    ⟨[], .error (.budgetExceeded maxSize)⟩
termination_by (quality - 5).toNat
decreasing_by all_goals omega

/-- The first `switch ext`: the data-URI head for the extension, `none` for the
`default` branch. -/
def mimeHead (ext : String) : Option String :=
  if ext = ".jpg" ∨ ext = ".jpeg" then some "data:image/jpeg;base64,"
  else if ext = ".png" then some "data:image/png;base64,"
  else none

/-- The function `ImagecompressionAndencoding`. `readFile` is `os.ReadFile`. -/
def ImagecompressionAndencoding {Img : Type} (readFile : String → Except String (List Byte))
    (codec : Codec Img) (imagePath : String) (maxSize : Int) : FitRun :=
  match readFile imagePath with
  | .error e => ⟨[], .error (.readFailed e)⟩
  | .ok fileData =>
    let ext := Ext imagePath
    match mimeHead ext with
    | none => ⟨[], .error (.unsupportedFormat ext)⟩
    | some pre =>
      if (fileData.length : Int) ≤ maxSize then
        ⟨[], .ok (pre ++ EncodeToString fileData)⟩
      else
        match codec.decode fileData with
        | .error e => ⟨[.decode], .error (.decodeFailed e)⟩
        | .ok img =>
          let run := qualityLoop codec ext pre img maxSize 95
          ⟨.decode :: run.calls, run.result⟩

/-- The qualities the loop can reach from 95 in steps of 10 while above 5. -/
def attemptedQualities : List Int := [95, 85, 75, 65, 55, 45, 35, 25, 15]

/-- The list `start, start - 10, ...` of `count` qualities. -/
def descending (start : Int) : Nat → List Int
  | 0 => []
  | count + 1 => start :: descending (start - 10) count

/-! ## `PerformObfuscationToString` -/

/-- Two's-complement wrap of a 64-bit signed result (Go `int` on a 64-bit
target). -/
def wrap64 (x : Int) : Int :=
  (x + 9223372036854775808) % 18446744073709551616 - 9223372036854775808

/-- The loop `for i := ...; i < length; i++ { runes[i] = '*' }`, entered with
the current `i`. The result is `none` when `runes[i]` is indexed out of range,
which is a run-time panic in Go. -/
def starLoop (runes : List Char) (i : Int) : Option (List Char) :=
  if _h : i < runes.length then
    if 0 ≤ i then starLoop (runes.set i.toNat '*') (i + 1) else none
  else
    some runes
termination_by (runes.length - i).toNat
decreasing_by
  all_goals simp only [List.length_set]
  all_goals omega

/-- The function `PerformObfuscationToString`; `none` is a panic. -/
def PerformObfuscationToString (input : String) (scope : Int) : Option String :=
  let runes := input.data
  let length : Int := runes.length
  if length ≤ scope then
    some ⟨runes.map fun _ => '*'⟩
  else
    (starLoop runes (wrap64 (length - scope))).map String.mk

/-! ## `domain.go` -/

/-- The struct `ImageUrl`. -/
structure ImageUrl where
  Url : String
  deriving DecidableEq, Repr

/-- The struct `Content`; `Text` is omitted from the JSON when empty and
`ImageUrl` when nil. -/
structure Content where
  Type' : String
  Text : String
  ImageUrl : Option ImageUrl
  deriving DecidableEq, Repr

/-- The struct `Messages`. -/
structure Messages where
  Role : String
  Content : List Content
  deriving DecidableEq, Repr

/-- The struct `PostApiData`. -/
structure PostApiData where
  Model : String
  Messages : List Messages
  deriving DecidableEq, Repr

/-- The struct `Message`. -/
structure Message where
  Role : String
  Content : String
  deriving DecidableEq, Repr

/-- The struct `Choice`; the untyped `LogProbs` payload is kept as text. -/
structure Choice where
  Index : Int
  Message : Message
  FinishReason : String
  LogProbs : Option String
  deriving DecidableEq, Repr

/-- The struct `PromptTokensDetails`. -/
structure PromptTokensDetails where
  CachedTokens : Int
  deriving DecidableEq, Repr

/-- The struct `CompletionTokensDetails`. -/
structure CompletionTokensDetails where
  TextTokens : Int
  deriving DecidableEq, Repr

/-- The struct `Usage`. -/
structure Usage where
  PromptTokens : Int
  CompletionTokens : Int
  TotalTokens : Int
  PromptTokensDetails : Option PromptTokensDetails
  CompletionTokensDetails : Option CompletionTokensDetails
  deriving DecidableEq, Repr

/-- The struct `ApiResponse`. -/
structure ApiResponse where
  ID : String
  Object : String
  Created : Int
  Model : String
  SystemFingerprint : Option String
  Choices : List Choice
  Usage : Usage
  deriving DecidableEq, Repr

/-! ## `main.go` -/

/-- The constant `ApiUrl`. -/
def ApiUrl : String := "https://dashscope.aliyuncs.com/compatible-mode/v1/chat/completions"

/-- The constant `ApiModel`. -/
def ApiModel : String := "qwen-vl-plus"

/-- The constant `ApiKeyEnvName`. -/
def ApiKeyEnvName : String := "YUMO_IMG_CAPTION_QWEN_API_KEY"

/-- The command line as `flag.Parse` sees it: each flag is `none` when it is
not given, and then takes the default declared in `main`. -/
structure CommandLine where
  url : Option String
  file : Option String
  model : Option String
  info : Option Bool
  base64 : Option Bool
  content_count : Option Int
  title_count : Option Int
  prompt : Option String

/-- An HTTP request as `main` builds it. -/
structure Request where
  method : String
  url : String
  header : List (String × String)
  body : String
  deriving DecidableEq, Repr

/-- What `client.Do` followed by `io.ReadAll(resp.Body)` and the deferred
`Body.Close` deliver for a request that was sent. -/
structure Response where
  StatusCode : Int
  body : Except String String
  closeError : Option String

/-- Everything outside the program that `main` consults. -/
structure World (Img : Type) where
  getenv : String → String
  abs : String → Except String String
  readFile : String → Except String (List Byte)
  writeFile : String → String → Option String
  codec : Codec Img
  marshal : PostApiData → Except String String
  send : Request → Except String Response
  unmarshal : String → Except String ApiResponse

/-- An observable action of `main`: a print, the `os.WriteFile` call, and the
request handed to `client.Do`. -/
inductive Event where
  | print (text : String)
  | writeFile (name : String) (data : String)
  | send (request : Request)
  deriving DecidableEq, Repr

/-- How a run ends: a normal return, or a run-time panic. -/
inductive Exit where
  | returned
  | panicked (what : String)
  deriving DecidableEq, Repr

/-- A run of `main`: its actions in order and how it ended. -/
structure MainRun where
  events : List Event
  exit : Exit
  deriving DecidableEq, Repr

/-- The function `GetImageUrl`: the absolute path, or the path itself when
`filepath.Abs` fails. -/
def GetImageUrl (abs : String → Except String String) (imagePath : String) : String :=
  match abs imagePath with
  | .error _ => imagePath
  | .ok absPath => absPath

/-- The separator line of `PrintBeautiful`. -/
def separator : Event :=
  .print "==========================================\n"

/-- The function `PrintBeautiful` around a callback that returns: separator,
the callback's actions, separator. -/
def PrintBeautiful (fn : List Event) : List Event :=
  separator :: fn ++ [separator]

/-- The function `GenPromptTemplateByCount`. -/
def GenPromptTemplateByCount (titleCount contentCount : Int) : String :=
  "\n请根据图片内容生成符合要求的文本描述，必须严格按照以下格式输出：\n\n标题: [不超过"
    ++ toString titleCount
    ++ "个字，需包含具体地点信息]\n描述: [不超过"
    ++ toString contentCount
    ++ "个字，需包含时间、地点、主要人物/主体、行为/事件等核心要素]\n\n输出要求：\n"
    ++ "1. 内容必须完全基于图片信息，不得虚构或猜测\n"
    ++ "2. 时间描述应具体（如：2023年春天、上周三下午等），不确定时可写\"近日\"或\"某天、秋季等笼统的时间词汇\"\n"
    ++ "3. 地点需具体到城市或明确的场所（如：北京天安门广场、某小区花园等），若无法分辨地点则用环境特征代替（如：拥挤的集市、某片荒芜的平原等）\n"
    ++ "4. 人物描述仅限图片中清晰可辨的部分，不得虚构身份信息\n"
    ++ "5. 不得添加任何主观评价、修辞或额外解释\n"
    ++ "6. 严格遵守上述字数限制\n"
    ++ "7. 如果判断为艺术价值较高的摄影作品或绘画等艺术作品，需要更深入的进行鉴赏和剖析\n\n"
    ++ "示例:\n标题: 北京迎来鼠年首场降雪\n描述: 近日，北京迎来鼠年首场降雪。图片显示市民在雪中行走，街道被白雪覆盖。\n\n"
    ++ "请仅输出标题和描述两行内容，不要包含其他任何文字:"

/-- The callback of the `-info` block: eight lines, the second of which shows
the key masked with scope 12; `none` when the masking panics. -/
def infoBlock (modelUrl qwenApiKey apiModel inputFile imgAbsFilePath modelPrompt : String)
    (recommendedContentCount recommendedTitleCount : Int) : Option (List Event) :=
  match PerformObfuscationToString qwenApiKey 12 with
  | none => none
  | some masked =>
    some [
      .print ("API 请求地址：" ++ modelUrl ++ "\n"),
      .print ("API 密钥：" ++ masked ++ "\n"),
      .print ("视觉理解模型：" ++ apiModel ++ "\n"),
      .print ("图片地址相对地址文件：" ++ inputFile ++ "\n"),
      .print ("图片地址绝对地址文件：" ++ imgAbsFilePath ++ "\n"),
      .print ("视觉理解提示词：\n" ++ modelPrompt ++ "\n"),
      .print ("生成内容的推荐字数：" ++ toString recommendedContentCount ++ "\n"),
      .print ("生成标题的推荐字数：" ++ toString recommendedTitleCount ++ "\n")]

/-- The request `main` builds: `http.NewRequest("POST", ApiUrl, body)` and the
two `Header.Set` calls. -/
def buildRequest (qwenApiKey jsonData : String) : Request :=
  { method := "POST"
    url := ApiUrl
    header := [("Content-Type", "application/json"), ("Authorization", "Bearer " ++ qwenApiKey)]
    body := jsonData }

/-- The part of `main` that follows a successful `io.ReadAll`: the status
check, `json.Unmarshal`, and the final report, which reads
`apiResponse.Choices[0]` after printing its first line. -/
def handleResponse (unmarshal : String → Except String ApiResponse) (statusCode : Int)
    (body : String) : MainRun :=
  if statusCode ≠ 200 ∧ statusCode ≠ 201 then
    ⟨[.print ("请求失败，状态码: " ++ toString statusCode ++ ", 响应: " ++ body ++ "\n")],
      .returned⟩
  else
    match unmarshal body with
    | .error e => ⟨PrintBeautiful [.print ("解析 JSON 响应失败： " ++ e ++ "\n")], .returned⟩
    | .ok apiResponse =>
      match apiResponse.Choices with
      | [] =>
        ⟨[separator, .print "模型生成描述成功\n"],
          .panicked "runtime error: index out of range [0] with length 0"⟩
      | choice :: _ =>
        ⟨PrintBeautiful [
            .print "模型生成描述成功\n",
            .print ("\n" ++ choice.Message.Content ++ "\n" ++ "\n"),
            .print ("提示词用量：\t" ++ toString apiResponse.Usage.PromptTokens ++ "\ttokens\n"),
            .print ("生成用量：\t" ++ toString apiResponse.Usage.CompletionTokens
              ++ "\ttokens\n"),
            .print ("总用量：\t" ++ toString apiResponse.Usage.TotalTokens ++ "\ttokens\n")],
          .returned⟩

/-- The part of `main` from `client.Do` on: a transport error, a body that
cannot be read, or `handleResponse`; the deferred `Body.Close` runs last on
every path once a response exists. -/
def exchange {Img : Type} (w : World Img) (request : Request) : MainRun :=
  match w.send request with
  | .error e => ⟨.send request :: PrintBeautiful [.print ("发送 HTTP 请求失败： " ++ e ++ "\n")],
      .returned⟩
  | .ok resp =>
    let closing : List Event :=
      match resp.closeError with
      | none => []
      | some e => [.print ("关闭 HTTP 响应失败： " ++ e ++ "\n")]
    match resp.body with
    | .error e =>
      ⟨.send request :: PrintBeautiful [.print ("读取 HTTP 响应失败： " ++ e ++ "\n")] ++ closing,
        .returned⟩
    | .ok body =>
      let run := handleResponse w.unmarshal resp.StatusCode body
      ⟨.send request :: run.events ++ closing, run.exit⟩

/-- The function `main`. -/
def main {Img : Type} (w : World Img) (args : CommandLine) : MainRun :=
  let qwenApiKey := w.getenv ApiKeyEnvName
  if qwenApiKey = "" then
    ⟨[.print ("系统未检索到有效的环境变量：YUMO_IMG_CAPTION_QWEN_API_KEY，"
        ++ "请在阿里云控制台创建并获取 API_KEY。\n")], .returned⟩
  else
    let modelUrl := args.url.getD ApiUrl
    let inputFile := args.file.getD ""
    let apiModel := args.model.getD ApiModel
    let showInfoFlag := args.info.getD false
    let saveBase64Flag := args.base64.getD false
    let recommendedContentCount := args.content_count.getD 30
    let recommendedTitleCount := args.title_count.getD 20
    let modelPrompt :=
      if args.prompt.getD "" = "" then
        GenPromptTemplateByCount recommendedTitleCount recommendedContentCount
      else args.prompt.getD ""
    let imgAbsFilePath := GetImageUrl w.abs inputFile
    let info : Option (List Event) :=
      if showInfoFlag then
        (infoBlock modelUrl qwenApiKey apiModel inputFile imgAbsFilePath modelPrompt
          recommendedContentCount recommendedTitleCount).map PrintBeautiful
      else some []
    match info with
    | none => ⟨[separator, .print ("API 请求地址：" ++ modelUrl ++ "\n")],
        .panicked "runtime error: index out of range"⟩
    | some shown =>
      if inputFile = "" then
        ⟨shown ++ PrintBeautiful
          [.print "系统未检索到有效的图片文件路径，请使用 -file 指定图片文件路径。\n"], .returned⟩
      else
        let banner := PrintBeautiful [
          .print ("正在解析图片文件：" ++ inputFile ++ "\n"),
          .print (if apiModel ≠ "" then "正在使用指定模型：" ++ apiModel ++ "\n"
            else "正在使用默认模型：" ++ ApiModel ++ "\n")]
        match (ImagecompressionAndencoding w.readFile w.codec imgAbsFilePath 4194304).result with
        | .error err =>
          ⟨shown ++ banner ++ PrintBeautiful [.print ("图片转换失败： " ++ err.message ++ "\n")],
            .returned⟩
        | .ok base64Img =>
          let saved : List Event :=
            if saveBase64Flag then
              PrintBeautiful (.writeFile "base64.txt" base64Img ::
                match w.writeFile "base64.txt" base64Img with
                | some e => [.print ("写入文件失败： " ++ e ++ "\n")]
                | none => [.print "图片 base64 编码已保存到 base64.txt 文件中。\n"])
            else []
          let postApiData : PostApiData :=
            { Model := apiModel
              Messages := [
                { Role := "user"
                  Content := [
                    { Type' := "image_url", Text := "", ImageUrl := some { Url := base64Img } },
                    { Type' := "text", Text := modelPrompt, ImageUrl := none }] }] }
          match w.marshal postApiData with
          | .error e =>
            ⟨shown ++ banner ++ saved
              ++ PrintBeautiful [.print ("JSON请求体转换失败： " ++ e ++ "\n")], .returned⟩
          | .ok jsonData =>
            let run := exchange w (buildRequest qwenApiKey jsonData)
            ⟨shown ++ banner ++ saved ++ run.events, run.exit⟩

/-! ## Sample inputs -/

/-- A file system holding one file with the given content at every path. -/
def oneFile (content : List Byte) : String → Except String (List Byte) :=
  fun _ => .ok content

/-- A codec whose images are their own bytes, whose JPEG output at quality `q`
is `q` zero bytes, and whose PNG output is the image itself. -/
def sizeCodec : Codec (List Byte) where
  decode := fun data => .ok data
  jpegEncode := fun _ quality => .ok (List.replicate quality.toNat 0)
  pngEncode := fun img => .ok img

/-- A codec that decodes nothing. -/
def noCodec : Codec Unit where
  decode := fun _ => .error "image: unknown format"
  jpegEncode := fun _ _ => .error "unreachable"
  pngEncode := fun _ => .error "unreachable"

/-- A JPEG encoder that refuses no image and whose output at quality `q` is
`q` zero bytes. -/
def sizeJpeg : JpegEncoder (List Byte) where
  refuses := fun _ => none
  bytes := fun _ quality => List.replicate quality.toNat 0

/-- A codec whose PNG output is a three-byte buffer whatever the image. -/
def smallPng : Codec Unit where
  decode := fun _ => .ok ()
  jpegEncode := fun _ _ => .ok [0, 0, 0]
  pngEncode := fun _ => .ok [0, 0, 0]

/-- One hundred zero bytes. -/
def hundredBytes : List Byte := List.replicate 100 0

/-- The ten bytes of the text `not a jpeg`. -/
def fakeJpeg : List Byte := [110, 111, 116, 32, 97, 32, 106, 112, 101, 103]

/-- The requests among a run's actions, in order. -/
def sentRequests : List Event → List Request
  | [] => []
  | .send request :: rest => request :: sentRequests rest
  | _ :: rest => sentRequests rest

/-- A decoded response body without choices. -/
def emptyChoices : ApiResponse where
  ID := "chatcmpl-0"
  Object := "chat.completion"
  Created := 0
  Model := "qwen-vl-plus"
  SystemFingerprint := none
  Choices := []
  Usage := ⟨0, 0, 0, none, none⟩

/-- A world with an API key, a small `.jpg` file at every path, and a server
that answers 200 with a body whose `choices` array is empty. -/
def sampleWorld : World Unit where
  getenv := fun name => if name = ApiKeyEnvName then "sk-0123456789abcdef" else ""
  abs := fun path => .ok path
  readFile := oneFile fakeJpeg
  writeFile := fun _ _ => none
  codec := noCodec
  marshal := fun _ => .ok "request"
  send := fun _ =>
    .ok { StatusCode := 200, body := .ok "\x7b\"choices\": []\x7d", closeError := none }
  unmarshal := fun _ => .ok emptyChoices

/-- The command line `-url http://localhost:8080/v1 -file /tmp/fake.jpg`. -/
def sampleArgs : CommandLine where
  url := some "http://localhost:8080/v1"
  file := some "/tmp/fake.jpg"
  model := none
  info := none
  base64 := none
  content_count := none
  title_count := none
  prompt := none

/-! ## Facts about the base64 model -/

theorem decodeSextet_encodeSextet (v : Nat) :
    decodeSextet (encodeSextet v) = some (v % 64) := by
  have key : ∀ i : Fin 64, decodeSextet (encodeStd.data.getD i.val 'A') = some i.val := by
    decide
  exact key ⟨v % 64, Nat.mod_lt _ (by decide)⟩

theorem encodeSextet_ne_padding (v : Nat) : encodeSextet v ≠ StdPadding := by
  have key : ∀ i : Fin 64, encodeStd.data.getD i.val 'A' ≠ StdPadding := by decide
  exact key ⟨v % 64, Nat.mod_lt _ (by decide)⟩

theorem encodeSextet_ne_newline (v : Nat) : encodeSextet v ≠ '\n' := by
  have key : ∀ i : Fin 64, encodeStd.data.getD i.val 'A' ≠ '\n' := by decide
  exact key ⟨v % 64, Nat.mod_lt _ (by decide)⟩

theorem decodeChars_group (c0 c1 c2 c3 : Char) (rest : List Char) (v0 v1 v2 v3 : Nat)
    (tail : List Byte)
    (h0 : decodeSextet c0 = some v0) (h1 : decodeSextet c1 = some v1)
    (h2 : decodeSextet c2 = some v2) (h3 : decodeSextet c3 = some v3)
    (hp2 : c2 ≠ StdPadding) (hp3 : c3 ≠ StdPadding)
    (hrest : decodeChars rest = some tail) :
    decodeChars (c0 :: c1 :: c2 :: c3 :: rest)
      = some (toByte ((v0 * 262144 + v1 * 4096 + v2 * 64 + v3) / 65536)
          :: toByte ((v0 * 262144 + v1 * 4096 + v2 * 64 + v3) / 256)
          :: toByte (v0 * 262144 + v1 * 4096 + v2 * 64 + v3) :: tail) := by
  cases rest with
  | nil =>
    have ht : tail = [] := by
      simpa [decodeChars, eq_comm] using hrest
    subst ht
    simp [decodeChars, h0, h1, h2, h3, hp2, hp3]
  | cons d ds =>
    simp [decodeChars, h0, h1, h2, h3, hrest]

theorem decodeChars_encodeChars (src : List Byte) :
    decodeChars (encodeChars src) = some src := by
  induction src using encodeChars.induct with
  | case1 => simp [encodeChars, decodeChars]
  | case2 a =>
    have ha := a.isLt
    simp only [encodeChars, decodeChars, decodeSextet_encodeSextet, and_self, if_true]
    congr 2
    apply Fin.ext
    simp only [toByte]
    omega
  | case3 a b =>
    have ha := a.isLt
    have hb := b.isLt
    simp only [encodeChars, decodeChars, decodeSextet_encodeSextet,
      encodeSextet_ne_padding, false_and, if_false, if_true]
    congr 2
    · apply Fin.ext
      simp only [toByte]
      omega
    · congr 1
      apply Fin.ext
      simp only [toByte]
      omega
  | case4 a b c rest ih =>
    have ha := a.isLt
    have hb := b.isLt
    have hc := c.isLt
    simp only [encodeChars]
    rw [decodeChars_group _ _ _ _ _ _ _ _ _ _ (decodeSextet_encodeSextet _)
      (decodeSextet_encodeSextet _) (decodeSextet_encodeSextet _)
      (decodeSextet_encodeSextet _) (encodeSextet_ne_padding _)
      (encodeSextet_ne_padding _) ih]
    congr 2
    · apply Fin.ext
      simp only [toByte]
      omega
    · congr 1
      · apply Fin.ext
        simp only [toByte]
        omega
      · congr 1
        apply Fin.ext
        simp only [toByte]
        omega

theorem encodeChars_ne_newline (src : List Byte) : ∀ c ∈ encodeChars src, c ≠ '\n' := by
  induction src using encodeChars.induct with
  | case1 => simp [encodeChars]
  | case2 a =>
    intro c hc
    simp only [encodeChars, List.mem_cons, List.mem_singleton, List.not_mem_nil, or_false] at hc
    rcases hc with h | h | h | h <;> subst h <;>
      first | exact encodeSextet_ne_newline _ | decide
  | case3 a b =>
    intro c hc
    simp only [encodeChars, List.mem_cons, List.mem_singleton, List.not_mem_nil, or_false] at hc
    rcases hc with h | h | h | h <;> subst h <;>
      first | exact encodeSextet_ne_newline _ | decide
  | case4 a b c rest ih =>
    intro x hx
    simp only [encodeChars, List.mem_cons] at hx
    rcases hx with h | h | h | h | h
    · subst h; exact encodeSextet_ne_newline _
    · subst h; exact encodeSextet_ne_newline _
    · subst h; exact encodeSextet_ne_newline _
    · subst h; exact encodeSextet_ne_newline _
    · exact ih x h

theorem DecodeString_EncodeToString (src : List Byte) :
    DecodeString (EncodeToString src) = some src := by
  simp [DecodeString, EncodeToString, decodeChars_encodeChars]

theorem EncodeToString_injective (a b : List Byte)
    (h : EncodeToString a = EncodeToString b) : a = b := by
  have ha := DecodeString_EncodeToString a
  rw [h, DecodeString_EncodeToString] at ha
  exact (Option.some.inj ha).symm

/-! ## Facts about the quality loop -/

section Loop

variable {Img : Type} (codec : Codec Img) (ext pre : String) (img : Img) (maxSize : Int)

theorem qualityLoop_done (quality : Int) (h : quality ≤ 5) :
    qualityLoop codec ext pre img maxSize quality
      = ⟨[], .error (.budgetExceeded maxSize)⟩ := by
  rw [qualityLoop]
  simp [not_lt.mpr h]

theorem qualityLoop_jpeg_error (quality : Int) (e : String)
    (hext : ext = ".jpg" ∨ ext = ".jpeg") (hq : 5 < quality)
    (henc : codec.jpegEncode img quality = .error e) :
    qualityLoop codec ext pre img maxSize quality
      = ⟨[.jpegEncode quality], .error (.encodeFailed e)⟩ := by
  rw [qualityLoop]
  simp [hq, hext, henc]

theorem qualityLoop_jpeg_fit (quality : Int) (buf : List Byte)
    (hext : ext = ".jpg" ∨ ext = ".jpeg") (hq : 5 < quality)
    (henc : codec.jpegEncode img quality = .ok buf) (hfit : (buf.length : Int) ≤ maxSize) :
    qualityLoop codec ext pre img maxSize quality
      = ⟨[.jpegEncode quality], .ok (pre ++ EncodeToString buf)⟩ := by
  rw [qualityLoop]
  simp [hq, hext, henc, hfit]

theorem qualityLoop_jpeg_over (quality : Int) (buf : List Byte)
    (hext : ext = ".jpg" ∨ ext = ".jpeg") (hq : 5 < quality)
    (henc : codec.jpegEncode img quality = .ok buf) (hover : maxSize < (buf.length : Int)) :
    qualityLoop codec ext pre img maxSize quality
      = ⟨.jpegEncode quality :: (qualityLoop codec ext pre img maxSize (quality - 10)).calls,
          (qualityLoop codec ext pre img maxSize (quality - 10)).result⟩ := by
  rw [qualityLoop]
  simp [hq, hext, henc, not_le.mpr hover]

theorem qualityLoop_png_error (quality : Int) (e : String)
    (hext : ext = ".png") (hq : 5 < quality)
    (henc : codec.pngEncode img = .error e) :
    qualityLoop codec ext pre img maxSize quality
      = ⟨[.pngEncode], .error (.encodeFailed e)⟩ := by
  subst hext
  rw [qualityLoop]
  simp [hq, henc]

theorem qualityLoop_png_fit (quality : Int) (buf : List Byte)
    (hext : ext = ".png") (hq : 5 < quality)
    (henc : codec.pngEncode img = .ok buf) (hfit : (buf.length : Int) ≤ maxSize) :
    qualityLoop codec ext pre img maxSize quality
      = ⟨[.pngEncode], .ok (pre ++ EncodeToString buf)⟩ := by
  subst hext
  rw [qualityLoop]
  simp [hq, henc, hfit]

theorem qualityLoop_png_over (quality : Int) (buf : List Byte)
    (hext : ext = ".png") (hq : 5 < quality)
    (henc : codec.pngEncode img = .ok buf) (hover : maxSize < (buf.length : Int)) :
    qualityLoop codec ext pre img maxSize quality
      = ⟨.pngEncode :: (qualityLoop codec ext pre img maxSize (quality - 10)).calls,
          (qualityLoop codec ext pre img maxSize (quality - 10)).result⟩ := by
  subst hext
  rw [qualityLoop]
  simp [hq, henc, not_le.mpr hover]

theorem mem_descending (count : Nat) : ∀ (start q : Int),
    q ∈ descending start count → q ≤ start ∧ start < q + 10 * count := by
  induction count with
  | zero => intro start q h; simp [descending] at h
  | succ n ih =>
    intro start q h
    simp only [descending, List.mem_cons] at h
    rcases h with h | h
    · subst h; constructor <;> push_cast <;> omega
    · have := ih _ _ h
      constructor <;> push_cast <;> omega

theorem attemptedQualities_eq : attemptedQualities = descending 95 9 := by
  decide

/-- When every remaining quality encodes to an over-budget buffer, the loop
tries each of them in order and reports that the budget is exceeded. -/
theorem qualityLoop_jpeg_exhaust (hext : ext = ".jpg" ∨ ext = ".jpeg") (count : Nat) :
    ∀ start : Int, start = 5 + 10 * count →
      (∀ q ∈ descending start count,
        ∃ buf, codec.jpegEncode img q = .ok buf ∧ maxSize < (buf.length : Int)) →
      qualityLoop codec ext pre img maxSize start
        = ⟨(descending start count).map .jpegEncode, .error (.budgetExceeded maxSize)⟩ := by
  induction count with
  | zero =>
    intro start hs _
    rw [qualityLoop_done _ _ _ _ _ _ (by omega)]
    simp [descending]
  | succ n ih =>
    intro start hs hall
    obtain ⟨buf, henc, hover⟩ := hall start (by simp [descending])
    rw [qualityLoop_jpeg_over codec ext pre img maxSize start buf hext
      (by push_cast at hs; omega) henc hover]
    rw [ih (start - 10) (by push_cast at hs; omega)
      (fun q hq => hall q (by simp [descending, hq]))]
    simp [descending]

/-- When some remaining quality fits and no higher one fails to encode, the
loop stops at the highest quality that fits, having tried exactly the
qualities down to it. -/
theorem qualityLoop_jpeg_first (hext : ext = ".jpg" ∨ ext = ".jpeg") (count : Nat) :
    ∀ (start q : Int) (buf : List Byte), start = 5 + 10 * count →
      q ∈ descending start count →
      codec.jpegEncode img q = .ok buf → (buf.length : Int) ≤ maxSize →
      (∀ r ∈ descending start count, q < r → ∀ e, codec.jpegEncode img r ≠ .error e) →
      ∃ q0 ∈ descending start count, ∃ buf0, q ≤ q0 ∧
        codec.jpegEncode img q0 = .ok buf0 ∧ (buf0.length : Int) ≤ maxSize ∧
        (∀ r ∈ descending start count, q0 < r →
          ∃ over, codec.jpegEncode img r = .ok over ∧ maxSize < (over.length : Int)) ∧
        qualityLoop codec ext pre img maxSize start
          = ⟨((descending start count).filter fun r => decide (q0 ≤ r)).map .jpegEncode,
              .ok (pre ++ EncodeToString buf0)⟩ := by
  induction count with
  | zero => intro start q buf _ hq; simp [descending] at hq
  | succ n ih =>
    intro start q buf hs hq henc hfit hnoerr
    have hstart : 5 < start := by push_cast at hs; omega
    have hbelow : ∀ r ∈ descending (start - 10) n, r < start := by
      intro r hr
      have := (mem_descending n _ _ hr).1
      omega
    have hfilter : ∀ q0 : Int, q0 < start →
        ((descending start (n + 1)).filter fun r => decide (q0 ≤ r))
          = start :: ((descending (start - 10) n).filter fun r => decide (q0 ≤ r)) := by
      intro q0 h0
      simp [descending, List.filter_cons, le_of_lt h0]
    have hfilter_top :
        ((descending start (n + 1)).filter fun r => decide (start ≤ r)) = [start] := by
      simp only [descending, List.filter_cons, le_refl, decide_True, if_true]
      congr 1
      rw [List.filter_eq_nil_iff]
      intro r hr
      have := hbelow r hr
      simp only [decide_eq_true_eq, not_le]
      exact this
    simp only [descending, List.mem_cons] at hq
    -- what the encoder does at the first quality of this pass
    cases hfirst : codec.jpegEncode img start with
    | error e =>
      rcases hq with hq | hq
      · subst hq; rw [henc] at hfirst; cases hfirst
      · exact absurd hfirst (hnoerr start (by simp [descending]) (hbelow q hq) e)
    | ok first =>
      by_cases hsize : (first.length : Int) ≤ maxSize
      · refine ⟨start, by simp [descending], first, ?_, hfirst, hsize, ?_, ?_⟩
        · rcases hq with hq | hq
          · omega
          · exact le_of_lt (hbelow q hq)
        · intro r hr hlt
          simp only [descending, List.mem_cons] at hr
          rcases hr with hr | hr
          · omega
          · have := hbelow r hr
            omega
        · rw [qualityLoop_jpeg_fit codec ext pre img maxSize start first hext hstart hfirst hsize,
            hfilter_top]
          rfl
      · have hover : maxSize < (first.length : Int) := not_le.mp hsize
        have hq' : q ∈ descending (start - 10) n := by
          rcases hq with hq | hq
          · subst hq; rw [henc] at hfirst; cases hfirst; exact absurd hfit hsize
          · exact hq
        obtain ⟨q0, hq0, buf0, hle, henc0, hfit0, hhigher, hrun⟩ :=
          ih (start - 10) q buf (by push_cast at hs; omega) hq' henc hfit
            (fun r hr hlt e => hnoerr r (by simp [descending, hr]) hlt e)
        refine ⟨q0, by simp [descending, hq0], buf0, hle, henc0, hfit0, ?_, ?_⟩
        · intro r hr hlt
          simp only [descending, List.mem_cons] at hr
          rcases hr with hr | hr
          · subst hr; exact ⟨first, hfirst, hover⟩
          · exact hhigher r hr hlt
        · rw [qualityLoop_jpeg_over codec ext pre img maxSize start first hext hstart hfirst
            hover, hrun, hfilter q0 (hbelow q0 hq0)]
          rfl

/-- A PNG re-encode that is over budget is over budget on every pass: the loop
makes the same call on each of them and reports that the budget is exceeded. -/
theorem qualityLoop_png_exhaust (hext : ext = ".png") (buf : List Byte)
    (henc : codec.pngEncode img = .ok buf) (hover : maxSize < (buf.length : Int))
    (count : Nat) :
    ∀ start : Int, start = 5 + 10 * count →
      qualityLoop codec ext pre img maxSize start
        = ⟨List.replicate count .pngEncode, .error (.budgetExceeded maxSize)⟩ := by
  induction count with
  | zero =>
    intro start hs
    rw [qualityLoop_done _ _ _ _ _ _ (by omega)]
    rfl
  | succ n ih =>
    intro start hs
    rw [qualityLoop_png_over codec ext pre img maxSize start buf hext
      (by push_cast at hs; omega) henc hover]
    rw [ih (start - 10) (by push_cast at hs; omega)]
    rfl

/-- Whatever the loop returns as a success is the data-URI head followed by
the base64 text of a buffer within the budget that the encoder for the
extension produced, for a JPEG at a quality the loop reached. -/
theorem qualityLoop_ok (bound : Nat) :
    ∀ (quality : Int) (uri : String), (quality - 5).toNat ≤ bound →
      (qualityLoop codec ext pre img maxSize quality).result = .ok uri →
      ∃ buf : List Byte, uri = pre ++ EncodeToString buf ∧ (buf.length : Int) ≤ maxSize ∧
        (((ext = ".jpg" ∨ ext = ".jpeg") ∧
            ∃ q, 5 < q ∧ q ≤ quality ∧ codec.jpegEncode img q = .ok buf)
          ∨ (ext = ".png" ∧ codec.pngEncode img = .ok buf)) := by
  induction bound with
  | zero =>
    intro quality uri hb h
    rw [qualityLoop_done _ _ _ _ _ _ (by omega)] at h
    cases h
  | succ n ih =>
    intro quality uri hb h
    by_cases hq : 5 < quality
    · have hnext : ((quality - 10) - 5).toNat ≤ n := by omega
      have hstep : (qualityLoop codec ext pre img maxSize (quality - 10)).result = .ok uri →
          ∃ buf : List Byte, uri = pre ++ EncodeToString buf ∧ (buf.length : Int) ≤ maxSize ∧
            (((ext = ".jpg" ∨ ext = ".jpeg") ∧
                ∃ q, 5 < q ∧ q ≤ quality ∧ codec.jpegEncode img q = .ok buf)
              ∨ (ext = ".png" ∧ codec.pngEncode img = .ok buf)) := by
        intro hrest
        obtain ⟨buf, huri, hfit, hsrc⟩ := ih _ _ hnext hrest
        refine ⟨buf, huri, hfit, ?_⟩
        rcases hsrc with ⟨hj, q, h5, hle, henc⟩ | hpng
        · exact Or.inl ⟨hj, q, h5, by omega, henc⟩
        · exact Or.inr hpng
      by_cases hj : ext = ".jpg" ∨ ext = ".jpeg"
      · rcases henc : codec.jpegEncode img quality with e | buf
        · rw [qualityLoop_jpeg_error codec ext pre img maxSize quality e hj hq henc] at h
          cases h
        · by_cases hsize : (buf.length : Int) ≤ maxSize
          · rw [qualityLoop_jpeg_fit codec ext pre img maxSize quality buf hj hq henc hsize] at h
            simp only [Except.ok.injEq] at h
            exact ⟨buf, h.symm, hsize, Or.inl ⟨hj, quality, hq, le_refl _, henc⟩⟩
          · rw [qualityLoop_jpeg_over codec ext pre img maxSize quality buf hj hq henc
              (not_le.mp hsize)] at h
            exact hstep h
      · by_cases hp : ext = ".png"
        · rcases henc : codec.pngEncode img with e | buf
          · rw [qualityLoop_png_error codec ext pre img maxSize quality e hp hq henc] at h
            cases h
          · by_cases hsize : (buf.length : Int) ≤ maxSize
            · rw [qualityLoop_png_fit codec ext pre img maxSize quality buf hp hq henc hsize] at h
              simp only [Except.ok.injEq] at h
              exact ⟨buf, h.symm, hsize, Or.inr ⟨hp, rfl⟩⟩
            · rw [qualityLoop_png_over codec ext pre img maxSize quality buf hp hq henc
                (not_le.mp hsize)] at h
              rw [← henc]
              exact hstep h
        · rw [qualityLoop] at h
          simp [hq, hj, hp] at h
    · rw [qualityLoop_done _ _ _ _ _ _ (by omega)] at h
      cases h

end Loop

/-! ## `ImagecompressionAndencoding`: the claims -/

section Fit

variable {Img : Type} (readFile : String → Except String (List Byte)) (codec : Codec Img)
  (imagePath : String) (maxSize : Int)

theorem mimeHead_jpeg (ext : String) (h : ext = ".jpg" ∨ ext = ".jpeg") :
    mimeHead ext = some "data:image/jpeg;base64," := by
  simp [mimeHead, h]

theorem mimeHead_png (ext : String) (h : ext = ".png") :
    mimeHead ext = some "data:image/png;base64," := by
  subst h
  simp [mimeHead]

theorem mimeHead_some (ext pre : String) (h : mimeHead ext = some pre) :
    ((ext = ".jpg" ∨ ext = ".jpeg") ∧ pre = "data:image/jpeg;base64,")
      ∨ (ext = ".png" ∧ pre = "data:image/png;base64,") := by
  unfold mimeHead at h
  split at h
  · next hj => exact Or.inl ⟨hj, (Option.some.inj h).symm⟩
  · split at h
    · next hp => exact Or.inr ⟨hp, (Option.some.inj h).symm⟩
    · cases h

/-- The run over an oversized file that decodes: one decode call, then the
quality loop from 95. -/
theorem fit_oversized (fileData : List Byte) (img : Img) (pre : String)
    (hread : readFile imagePath = .ok fileData)
    (hhead : mimeHead (Ext imagePath) = some pre)
    (hbig : maxSize < (fileData.length : Int))
    (hdec : codec.decode fileData = .ok img) :
    ImagecompressionAndencoding readFile codec imagePath maxSize
      = ⟨.decode :: (qualityLoop codec (Ext imagePath) pre img maxSize 95).calls,
          (qualityLoop codec (Ext imagePath) pre img maxSize 95).result⟩ := by
  simp [ImagecompressionAndencoding, hread, hhead, not_le.mpr hbig, hdec]

/-- Every success is the head for the extension followed by the base64 text of
a buffer within the budget: the file itself when it is within the budget, and
otherwise the output of an encode call on the decoded image. -/
theorem fit_ok (uri : String)
    (h : (ImagecompressionAndencoding readFile codec imagePath maxSize).result = .ok uri) :
    ∃ (fileData : List Byte) (pre : String) (buf : List Byte),
      readFile imagePath = .ok fileData ∧ mimeHead (Ext imagePath) = some pre ∧
      uri = pre ++ EncodeToString buf ∧ (buf.length : Int) ≤ maxSize ∧
      (((fileData.length : Int) ≤ maxSize ∧ buf = fileData) ∨
        (maxSize < (fileData.length : Int) ∧ ∃ img, codec.decode fileData = .ok img ∧
          (((Ext imagePath = ".jpg" ∨ Ext imagePath = ".jpeg") ∧
              ∃ q, 5 < q ∧ q ≤ 95 ∧ codec.jpegEncode img q = .ok buf)
            ∨ (Ext imagePath = ".png" ∧ codec.pngEncode img = .ok buf)))) := by
  cases hread : readFile imagePath with
  | error e => simp [ImagecompressionAndencoding, hread] at h
  | ok fileData =>
    cases hhead : mimeHead (Ext imagePath) with
    | none => simp [ImagecompressionAndencoding, hread, hhead] at h
    | some pre =>
      by_cases hsize : (fileData.length : Int) ≤ maxSize
      · simp [ImagecompressionAndencoding, hread, hhead, hsize] at h
        exact ⟨fileData, pre, fileData, rfl, rfl, h.symm, hsize, Or.inl ⟨hsize, rfl⟩⟩
      · cases hdec : codec.decode fileData with
        | error e => simp [ImagecompressionAndencoding, hread, hhead, hsize, hdec] at h
        | ok img =>
          rw [fit_oversized readFile codec imagePath maxSize fileData img pre hread hhead
            (not_le.mp hsize) hdec] at h
          obtain ⟨buf, huri, hfit, hsrc⟩ :=
            qualityLoop_ok codec (Ext imagePath) pre img maxSize _ 95 uri (le_refl _) h
          exact ⟨fileData, pre, buf, rfl, rfl, huri, hfit,
            Or.inr ⟨not_le.mp hsize, img, hdec, hsrc⟩⟩

/-- C2: a `.jpg`, `.jpeg` or `.png` file whose length is within the budget is
returned as the head for its extension followed by the standard base64 text of
exactly the file's bytes, with no call to the codec at all, for every codec and
every content. -/
theorem within_budget_returns_original (fileData : List Byte)
    (hread : readFile imagePath = .ok fileData)
    (hext : Ext imagePath = ".jpg" ∨ Ext imagePath = ".jpeg" ∨ Ext imagePath = ".png")
    (hsmall : (fileData.length : Int) ≤ maxSize) :
    (Ext imagePath = ".jpg" ∨ Ext imagePath = ".jpeg" →
      ImagecompressionAndencoding readFile codec imagePath maxSize
        = ⟨[], .ok ("data:image/jpeg;base64," ++ EncodeToString fileData)⟩) ∧
    (Ext imagePath = ".png" →
      ImagecompressionAndencoding readFile codec imagePath maxSize
        = ⟨[], .ok ("data:image/png;base64," ++ EncodeToString fileData)⟩) ∧
    (ImagecompressionAndencoding readFile codec imagePath maxSize).calls = [] ∧
    (∃ uri, (ImagecompressionAndencoding readFile codec imagePath maxSize).result = .ok uri) ∧
    DecodeString (EncodeToString fileData) = some fileData := by
  have hj : Ext imagePath = ".jpg" ∨ Ext imagePath = ".jpeg" →
      ImagecompressionAndencoding readFile codec imagePath maxSize
        = ⟨[], .ok ("data:image/jpeg;base64," ++ EncodeToString fileData)⟩ := by
    intro h
    simp [ImagecompressionAndencoding, hread, mimeHead_jpeg _ h, hsmall]
  have hp : Ext imagePath = ".png" →
      ImagecompressionAndencoding readFile codec imagePath maxSize
        = ⟨[], .ok ("data:image/png;base64," ++ EncodeToString fileData)⟩ := by
    intro h
    simp [ImagecompressionAndencoding, hread, mimeHead_png _ h, hsmall]
  refine ⟨hj, hp, ?_, ?_, DecodeString_EncodeToString fileData⟩
  · rcases hext with h | h | h
    · rw [hj (Or.inl h)]
    · rw [hj (Or.inr h)]
    · rw [hp h]
  · rcases hext with h | h | h
    · exact ⟨_, by rw [hj (Or.inl h)]⟩
    · exact ⟨_, by rw [hj (Or.inr h)]⟩
    · exact ⟨_, by rw [hp h]⟩

/-- C3: for a JPEG file over the budget that decodes, when each of the nine
qualities 95, 85, ..., 15 encodes to a buffer longer than the budget, the run
is the decode followed by exactly those nine encode calls in that order
(quality 5 is not among them), and it ends with the budget-exceeded error,
whose message carries the budget. -/
theorem jpeg_exhausted_budget_exceeded (fileData : List Byte) (img : Img)
    (hread : readFile imagePath = .ok fileData)
    (hext : Ext imagePath = ".jpg" ∨ Ext imagePath = ".jpeg")
    (hbig : maxSize < (fileData.length : Int))
    (hdec : codec.decode fileData = .ok img)
    (hall : ∀ q ∈ attemptedQualities,
      ∃ buf, codec.jpegEncode img q = .ok buf ∧ maxSize < (buf.length : Int)) :
    ImagecompressionAndencoding readFile codec imagePath maxSize
      = ⟨[.decode, .jpegEncode 95, .jpegEncode 85, .jpegEncode 75, .jpegEncode 65,
            .jpegEncode 55, .jpegEncode 45, .jpegEncode 35, .jpegEncode 25, .jpegEncode 15],
          .error (.budgetExceeded maxSize)⟩ ∧
    CodecCall.jpegEncode 5 ∉ (ImagecompressionAndencoding readFile codec imagePath maxSize).calls ∧
    (FitError.budgetExceeded maxSize).message
      = "无法将图片压缩到 " ++ toString maxSize ++ " 字节以下" := by
  have hrun : ImagecompressionAndencoding readFile codec imagePath maxSize
      = ⟨[.decode, .jpegEncode 95, .jpegEncode 85, .jpegEncode 75, .jpegEncode 65,
            .jpegEncode 55, .jpegEncode 45, .jpegEncode 35, .jpegEncode 25, .jpegEncode 15],
          .error (.budgetExceeded maxSize)⟩ := by
    rw [fit_oversized readFile codec imagePath maxSize fileData img _ hread
      (mimeHead_jpeg _ hext) hbig hdec]
    rw [qualityLoop_jpeg_exhaust codec (Ext imagePath) _ img maxSize hext 9 95 (by norm_num)
      (by rw [← attemptedQualities_eq]; exact hall)]
    rfl
  refine ⟨hrun, ?_, rfl⟩
  rw [hrun]
  simp

/-- C5: a file whose extension is none of `.jpg`, `.jpeg`, `.png` gets the
unsupported-format error naming its extension, whatever its size and content,
with no call to the codec. -/
theorem unsupported_extension_rejected (fileData : List Byte)
    (hread : readFile imagePath = .ok fileData)
    (hext : Ext imagePath ≠ ".jpg" ∧ Ext imagePath ≠ ".jpeg" ∧ Ext imagePath ≠ ".png") :
    ImagecompressionAndencoding readFile codec imagePath maxSize
      = ⟨[], .error (.unsupportedFormat (Ext imagePath))⟩ := by
  simp [ImagecompressionAndencoding, hread, mimeHead, hext.1, hext.2.1, hext.2.2]

/-- First fit when no encode call above a fitting quality fails: the run
succeeds with the encoding at the highest quality that fits, after encode calls
at exactly the qualities from 95 down to it. -/
theorem fit_first_of_no_error (fileData : List Byte) (img : Img) (q : Int) (buf : List Byte)
    (hread : readFile imagePath = .ok fileData)
    (hext : Ext imagePath = ".jpg" ∨ Ext imagePath = ".jpeg")
    (hbig : maxSize < (fileData.length : Int))
    (hdec : codec.decode fileData = .ok img)
    (hq : q ∈ attemptedQualities)
    (henc : codec.jpegEncode img q = .ok buf) (hfit : (buf.length : Int) ≤ maxSize)
    (hnoerr : ∀ r ∈ attemptedQualities, q < r → ∀ e, codec.jpegEncode img r ≠ .error e) :
    ∃ q0 ∈ attemptedQualities, ∃ buf0 : List Byte, q ≤ q0 ∧
      codec.jpegEncode img q0 = .ok buf0 ∧ (buf0.length : Int) ≤ maxSize ∧
      (∀ r ∈ attemptedQualities, q0 < r →
        ∃ over, codec.jpegEncode img r = .ok over ∧ maxSize < (over.length : Int)) ∧
      ImagecompressionAndencoding readFile codec imagePath maxSize
        = ⟨.decode :: (attemptedQualities.filter fun r => decide (q0 ≤ r)).map .jpegEncode,
            .ok ("data:image/jpeg;base64," ++ EncodeToString buf0)⟩ := by
  rw [attemptedQualities_eq] at hq hnoerr ⊢
  obtain ⟨q0, hq0, buf0, hle, henc0, hfit0, hhigher, hrun⟩ :=
    qualityLoop_jpeg_first codec (Ext imagePath) "data:image/jpeg;base64," img maxSize hext 9
      95 q buf (by norm_num) hq henc hfit hnoerr
  refine ⟨q0, hq0, buf0, hle, henc0, hfit0, hhigher, ?_⟩
  rw [fit_oversized readFile codec imagePath maxSize fileData img _ hread
    (mimeHead_jpeg _ hext) hbig hdec, hrun]

/-- C1: for a JPEG file (`.jpg` or `.jpeg`) over the budget that decodes, when
at least one quality of 95, 85, ..., 15 encodes to a buffer within the budget,
the run succeeds and its payload is the encoding at the first (highest) such
quality `q0`: every higher quality of the sequence encoded to more than the
budget, and the encode calls are exactly the qualities from 95 down to `q0`,
so no lower quality is tried even if it would be smaller. -/
theorem jpeg_first_fit (decode : List Byte → Except String Img) (jpeg : JpegEncoder Img)
    (pngEncode : Img → Except String (List Byte)) (fileData : List Byte) (img : Img)
    (hread : readFile imagePath = .ok fileData)
    (hext : Ext imagePath = ".jpg" ∨ Ext imagePath = ".jpeg")
    (hbig : maxSize < (fileData.length : Int))
    (hdec : decode fileData = .ok img)
    (hsome : ∃ q ∈ attemptedQualities, ∃ buf : List Byte,
      jpeg.Encode img q = .ok buf ∧ (buf.length : Int) ≤ maxSize) :
    ∃ q0 ∈ attemptedQualities, ∃ buf0 : List Byte,
      jpeg.Encode img q0 = .ok buf0 ∧ (buf0.length : Int) ≤ maxSize ∧
      (∀ r ∈ attemptedQualities, q0 < r →
        ∃ over, jpeg.Encode img r = .ok over ∧ maxSize < (over.length : Int)) ∧
      ImagecompressionAndencoding readFile ⟨decode, jpeg.Encode, pngEncode⟩ imagePath maxSize
        = ⟨.decode :: (attemptedQualities.filter fun r => decide (q0 ≤ r)).map .jpegEncode,
            .ok ("data:image/jpeg;base64," ++ EncodeToString buf0)⟩ := by
  obtain ⟨q, hq, buf, henc, hfit⟩ := hsome
  have hnone : jpeg.refuses img = none := by
    unfold JpegEncoder.Encode at henc
    split at henc
    · cases henc
    · assumption
  have hnoerr : ∀ r ∈ attemptedQualities, q < r → ∀ e, jpeg.Encode img r ≠ .error e := by
    intro r _ _ e h
    unfold JpegEncoder.Encode at h
    rw [hnone] at h
    cases h
  obtain ⟨q0, hq0, buf0, _, henc0, hfit0, hhigher, hrun⟩ :=
    fit_first_of_no_error readFile ⟨decode, jpeg.Encode, pngEncode⟩ imagePath maxSize fileData
      img q buf hread hext hbig hdec hq henc hfit hnoerr
  exact ⟨q0, hq0, buf0, henc0, hfit0, hhigher, hrun⟩

/-- C4: whenever the function succeeds, the returned string is the head for the
extension followed by the base64 text of a buffer whose length is within the
budget, and every buffer whose base64 text it could be is within the budget. -/
theorem success_within_budget (uri : String)
    (h : (ImagecompressionAndencoding readFile codec imagePath maxSize).result = .ok uri) :
    ∃ (pre : String) (buf : List Byte), mimeHead (Ext imagePath) = some pre ∧
      uri = pre ++ EncodeToString buf ∧ (buf.length : Int) ≤ maxSize ∧
      ∀ other : List Byte, uri = pre ++ EncodeToString other →
        (other.length : Int) ≤ maxSize := by
  obtain ⟨fileData, pre, buf, _, hhead, huri, hfit, _⟩ :=
    fit_ok readFile codec imagePath maxSize uri h
  refine ⟨pre, buf, hhead, huri, hfit, ?_⟩
  intro other hother
  rw [huri] at hother
  have hdata := congrArg String.data hother
  simp only [String.data_append] at hdata
  have hsame : EncodeToString buf = EncodeToString other :=
    String.ext (List.append_cancel_left hdata)
  rw [← EncodeToString_injective buf other hsame]
  exact hfit

/-- C6, as amended: for a `.png` file over the budget that decodes and whose
PNG re-encoding is longer than the budget, the run is the decode followed by
nine identical PNG encode calls, and it ends with the budget-exceeded error. -/
theorem png_oversized_budget_exceeded (fileData : List Byte) (img : Img) (buf : List Byte)
    (hread : readFile imagePath = .ok fileData)
    (hext : Ext imagePath = ".png")
    (hbig : maxSize < (fileData.length : Int))
    (hdec : codec.decode fileData = .ok img)
    (henc : codec.pngEncode img = .ok buf) (hover : maxSize < (buf.length : Int)) :
    ImagecompressionAndencoding readFile codec imagePath maxSize
      = ⟨.decode :: List.replicate 9 .pngEncode, .error (.budgetExceeded maxSize)⟩ := by
  rw [fit_oversized readFile codec imagePath maxSize fileData img _ hread
    (mimeHead_png _ hext) hbig hdec]
  rw [qualityLoop_png_exhaust codec (Ext imagePath) _ img maxSize hext buf henc hover 9 95
    (by norm_num)]

/-- C7: every successful result starts with the fixed head for its extension,
contains no newline, and its remainder decodes as standard padded base64 to
exactly the buffer that was encoded: the file's bytes when the file is within
the budget, and otherwise a buffer within the budget that the encoder for the
extension returned for the decoded image. -/
theorem data_uri_round_trip (uri : String)
    (h : (ImagecompressionAndencoding readFile codec imagePath maxSize).result = .ok uri) :
    ∃ (fileData : List Byte) (pre : String) (buf : List Byte),
      readFile imagePath = .ok fileData ∧
      (((Ext imagePath = ".jpg" ∨ Ext imagePath = ".jpeg") ∧ pre = "data:image/jpeg;base64,")
        ∨ (Ext imagePath = ".png" ∧ pre = "data:image/png;base64,")) ∧
      uri = pre ++ EncodeToString buf ∧
      '\n' ∉ uri.data ∧
      DecodeString ⟨uri.data.drop pre.length⟩ = some buf ∧
      (buf.length : Int) ≤ maxSize ∧
      (((fileData.length : Int) ≤ maxSize ∧ buf = fileData) ∨
        (maxSize < (fileData.length : Int) ∧ ∃ img, codec.decode fileData = .ok img ∧
          (((Ext imagePath = ".jpg" ∨ Ext imagePath = ".jpeg") ∧
              ∃ q, 5 < q ∧ q ≤ 95 ∧ codec.jpegEncode img q = .ok buf)
            ∨ (Ext imagePath = ".png" ∧ codec.pngEncode img = .ok buf)))) := by
  obtain ⟨fileData, pre, buf, hread, hhead, huri, hfit, hsrc⟩ :=
    fit_ok readFile codec imagePath maxSize uri h
  have hpre := mimeHead_some _ _ hhead
  refine ⟨fileData, pre, buf, hread, hpre, huri, ?_, ?_, hfit, hsrc⟩
  · rw [huri, String.data_append]
    intro hmem
    rcases List.mem_append.mp hmem with hm | hm
    · rcases hpre with ⟨_, hp⟩ | ⟨_, hp⟩ <;> subst hp <;> revert hm <;> decide
    · exact encodeChars_ne_newline buf _ hm rfl
  · rw [huri, String.data_append, String.length, List.drop_left]
    exact DecodeString_EncodeToString buf

end Fit

/-! ## Sample runs -/

theorem sample_jpeg_run :
    ImagecompressionAndencoding (oneFile hundredBytes) sizeCodec "/tmp/photo.jpg" 60
      = ⟨[.decode, .jpegEncode 95, .jpegEncode 85, .jpegEncode 75, .jpegEncode 65,
            .jpegEncode 55],
          .ok ("data:image/jpeg;base64," ++ EncodeToString (List.replicate 55 0))⟩ := by
  have hext : Ext "/tmp/photo.jpg" = ".jpg" := by decide
  have hlen : ¬ ((hundredBytes.length : Int) ≤ 60) := by decide
  simp [ImagecompressionAndencoding, oneFile, hext, mimeHead, hlen, sizeCodec, qualityLoop]

theorem jpeg_first_fit_witness :
    ∃ q0 ∈ attemptedQualities, ∃ buf0 : List Byte,
      sizeJpeg.Encode hundredBytes q0 = .ok buf0 ∧ (buf0.length : Int) ≤ 60 ∧
      (∀ r ∈ attemptedQualities, q0 < r →
        ∃ over, sizeJpeg.Encode hundredBytes r = .ok over ∧ 60 < (over.length : Int)) ∧
      ImagecompressionAndencoding (oneFile hundredBytes)
          ⟨fun data => .ok data, sizeJpeg.Encode, fun img => .ok img⟩ "/tmp/photo.jpg" 60
        = ⟨.decode :: (attemptedQualities.filter fun r => decide (q0 ≤ r)).map .jpegEncode,
            .ok ("data:image/jpeg;base64," ++ EncodeToString buf0)⟩ :=
  jpeg_first_fit (oneFile hundredBytes) "/tmp/photo.jpg" 60 (fun data => .ok data) sizeJpeg
    (fun img => .ok img) hundredBytes hundredBytes rfl (Or.inl (by decide)) (by decide) rfl
    ⟨15, by decide, List.replicate 15 0, rfl, by decide⟩

theorem within_budget_returns_original_witness :
    ImagecompressionAndencoding (oneFile fakeJpeg) noCodec "/tmp/fake.jpg" 1024
        = ⟨[], .ok ("data:image/jpeg;base64," ++ EncodeToString fakeJpeg)⟩ ∧
      EncodeToString fakeJpeg = "bm90IGEganBlZw==" :=
  ⟨(within_budget_returns_original (oneFile fakeJpeg) noCodec "/tmp/fake.jpg" 1024 fakeJpeg
      rfl (Or.inl (by decide)) (by decide)).1 (Or.inl (by decide)), by decide⟩

theorem jpeg_exhausted_budget_exceeded_witness :
    ImagecompressionAndencoding (oneFile hundredBytes) sizeCodec "/tmp/photo.jpeg" 10
      = ⟨[.decode, .jpegEncode 95, .jpegEncode 85, .jpegEncode 75, .jpegEncode 65,
            .jpegEncode 55, .jpegEncode 45, .jpegEncode 35, .jpegEncode 25, .jpegEncode 15],
          .error (.budgetExceeded 10)⟩ ∧
    CodecCall.jpegEncode 5
      ∉ (ImagecompressionAndencoding (oneFile hundredBytes) sizeCodec "/tmp/photo.jpeg" 10).calls ∧
    (FitError.budgetExceeded 10).message = "无法将图片压缩到 " ++ toString (10 : Int) ++ " 字节以下" :=
  jpeg_exhausted_budget_exceeded (oneFile hundredBytes) sizeCodec "/tmp/photo.jpeg" 10
    hundredBytes hundredBytes rfl (Or.inr (by decide)) (by decide) rfl
    (by
      intro q hq
      refine ⟨List.replicate q.toNat 0, rfl, ?_⟩
      simp only [attemptedQualities, List.mem_cons, List.mem_singleton, List.not_mem_nil,
        or_false] at hq
      rcases hq with h | h | h | h | h | h | h | h | h <;> subst h <;> decide)

theorem success_within_budget_witness :
    ∃ (pre : String) (buf : List Byte), mimeHead (Ext "/tmp/photo.jpg") = some pre ∧
      "data:image/jpeg;base64," ++ EncodeToString (List.replicate 55 0)
        = pre ++ EncodeToString buf ∧
      (buf.length : Int) ≤ 60 ∧
      ∀ other : List Byte,
        "data:image/jpeg;base64," ++ EncodeToString (List.replicate 55 0)
          = pre ++ EncodeToString other →
        (other.length : Int) ≤ 60 :=
  success_within_budget (oneFile hundredBytes) sizeCodec "/tmp/photo.jpg" 60 _
    (by rw [sample_jpeg_run])

theorem unsupported_extension_rejected_witness :
    ImagecompressionAndencoding (oneFile fakeJpeg) noCodec "/tmp/notes.txt" 1024
      = ⟨[], .error (.unsupportedFormat ".txt")⟩ :=
  unsupported_extension_rejected (oneFile fakeJpeg) noCodec "/tmp/notes.txt" 1024 fakeJpeg
    rfl (by decide)

theorem png_oversized_budget_exceeded_witness :
    ImagecompressionAndencoding (oneFile hundredBytes) sizeCodec "/tmp/shot.png" 60
      = ⟨[.decode, .pngEncode, .pngEncode, .pngEncode, .pngEncode, .pngEncode, .pngEncode,
            .pngEncode, .pngEncode, .pngEncode],
          .error (.budgetExceeded 60)⟩ :=
  png_oversized_budget_exceeded (oneFile hundredBytes) sizeCodec "/tmp/shot.png" 60
    hundredBytes hundredBytes hundredBytes rfl (by decide) (by decide) rfl rfl (by decide)

/-- C6, as stated, fails twice over. A `.png` file of five bytes over a budget
of four, whose PNG re-encoding has three bytes, is a success after one encode
call; and a `.png` file over the budget that does not decode gets the
decode-failed error, not the budget-exceeded one. -/
theorem png_oversized_counterexample :
    (Ext "/tmp/shot.png" = ".png" ∧
      (4 : Int) < (([0, 0, 0, 0, 0] : List Byte).length : Int) ∧
      ImagecompressionAndencoding (oneFile [0, 0, 0, 0, 0]) smallPng "/tmp/shot.png" 4
        = ⟨[.decode, .pngEncode], .ok ("data:image/png;base64," ++ EncodeToString [0, 0, 0])⟩) ∧
    ((4 : Int) < (fakeJpeg.length : Int) ∧
      ImagecompressionAndencoding (oneFile fakeJpeg) noCodec "/tmp/shot.png" 4
        = ⟨[.decode], .error (.decodeFailed "image: unknown format")⟩) := by
  have hext : Ext "/tmp/shot.png" = ".png" := by decide
  refine ⟨⟨hext, by decide, ?_⟩, by decide, ?_⟩
  · simp [ImagecompressionAndencoding, oneFile, hext, mimeHead, smallPng, qualityLoop]
  · have hlen : ¬ ((fakeJpeg.length : Int) ≤ 4) := by decide
    simp [ImagecompressionAndencoding, oneFile, hext, mimeHead, noCodec, hlen]

theorem data_uri_round_trip_witness :
    ∃ (fileData : List Byte) (pre : String) (buf : List Byte),
      oneFile hundredBytes "/tmp/photo.jpg" = .ok fileData ∧
      (((Ext "/tmp/photo.jpg" = ".jpg" ∨ Ext "/tmp/photo.jpg" = ".jpeg")
          ∧ pre = "data:image/jpeg;base64,")
        ∨ (Ext "/tmp/photo.jpg" = ".png" ∧ pre = "data:image/png;base64,")) ∧
      "data:image/jpeg;base64," ++ EncodeToString (List.replicate 55 0)
        = pre ++ EncodeToString buf ∧
      '\n' ∉ ("data:image/jpeg;base64," ++ EncodeToString (List.replicate 55 0)).data ∧
      DecodeString
        ⟨("data:image/jpeg;base64," ++ EncodeToString (List.replicate 55 0)).data.drop
          pre.length⟩ = some buf ∧
      (buf.length : Int) ≤ 60 ∧
      (((fileData.length : Int) ≤ 60 ∧ buf = fileData) ∨
        ((60 : Int) < (fileData.length : Int) ∧ ∃ img, sizeCodec.decode fileData = .ok img ∧
          (((Ext "/tmp/photo.jpg" = ".jpg" ∨ Ext "/tmp/photo.jpg" = ".jpeg") ∧
              ∃ q, 5 < q ∧ q ≤ 95 ∧ sizeCodec.jpegEncode img q = .ok buf)
            ∨ (Ext "/tmp/photo.jpg" = ".png" ∧ sizeCodec.pngEncode img = .ok buf)))) :=
  data_uri_round_trip (oneFile hundredBytes) sizeCodec "/tmp/photo.jpg" 60 _
    (by rw [sample_jpeg_run])

/-! ## `PerformObfuscationToString` -/

theorem starLoop_negative (runes : List Char) (i : Int) (hneg : i < 0) :
    starLoop runes i = none := by
  rw [starLoop]
  have h : i < (runes.length : Int) := by omega
  simp [h, not_le.mpr hneg]

theorem obfuscation_sample :
    PerformObfuscationToString "sk-0123456789abcdef" 12 = some "sk-0123************" := by
  simp [PerformObfuscationToString, wrap64, starLoop]

/-- For every 64-bit scope for which `length - scope` exceeds the largest
64-bit integer, the subtraction wraps to a negative index and the function
panics. -/
theorem PerformObfuscationToString_panics (input : String) (scope : Int)
    (hlo : -9223372036854775808 ≤ scope)
    (hlen : (input.data.length : Int) < 9223372036854775808)
    (hsub : 9223372036854775808 ≤ (input.data.length : Int) - scope) :
    PerformObfuscationToString input scope = none := by
  have hw : wrap64 ((input.data.length : Int) - scope) < 0 := by
    unfold wrap64
    omega
  unfold PerformObfuscationToString
  dsimp only
  rw [if_neg (by omega), starLoop_negative _ _ hw]
  rfl

theorem handleResponse_empty_choices (unmarshal : String → Except String ApiResponse)
    (statusCode : Int) (body : String) (apiResponse : ApiResponse)
    (hstatus : statusCode = 200 ∨ statusCode = 201)
    (hjson : unmarshal body = .ok apiResponse) (hempty : apiResponse.Choices = []) :
    handleResponse unmarshal statusCode body
      = ⟨[separator, .print "模型生成描述成功\n"],
          .panicked "runtime error: index out of range [0] with length 0"⟩ := by
  have hs : ¬ (statusCode ≠ 200 ∧ statusCode ≠ 201) := by
    rcases hstatus with h | h <;> simp [h]
  unfold handleResponse
  rw [if_neg hs]
  simp [hjson, hempty]

theorem sample_main_run :
    main sampleWorld sampleArgs
      = ⟨PrintBeautiful [.print "正在解析图片文件：/tmp/fake.jpg\n",
              .print "正在使用指定模型：qwen-vl-plus\n"]
            ++ [.send (buildRequest "sk-0123456789abcdef" "request"), separator,
              .print "模型生成描述成功\n"],
          .panicked "runtime error: index out of range [0] with length 0"⟩ := by
  have hfit : ImagecompressionAndencoding (oneFile fakeJpeg) noCodec "/tmp/fake.jpg" 4194304
      = ⟨[], .ok ("data:image/jpeg;base64," ++ EncodeToString fakeJpeg)⟩ := by
    have hext : Ext "/tmp/fake.jpg" = ".jpg" := by decide
    have hlen : (fakeJpeg.length : Int) ≤ 4194304 := by decide
    simp [ImagecompressionAndencoding, oneFile, hext, mimeHead, hlen]
  have hkey : sampleWorld.getenv ApiKeyEnvName = "sk-0123456789abcdef" := by decide
  have hresp : handleResponse sampleWorld.unmarshal 200 "\x7b\"choices\": []\x7d"
      = ⟨[separator, .print "模型生成描述成功\n"],
          .panicked "runtime error: index out of range [0] with length 0"⟩ :=
    handleResponse_empty_choices _ _ _ emptyChoices (Or.inl rfl) rfl rfl
  have hex : exchange sampleWorld (buildRequest "sk-0123456789abcdef" "request")
      = ⟨[.send (buildRequest "sk-0123456789abcdef" "request"), separator,
            .print "模型生成描述成功\n"],
          .panicked "runtime error: index out of range [0] with length 0"⟩ := by
    unfold exchange
    have hsend : sampleWorld.send (buildRequest "sk-0123456789abcdef" "request")
        = .ok { StatusCode := 200, body := .ok "\x7b\"choices\": []\x7d",
                closeError := none } := rfl
    rw [hsend]
    simp only [hresp]
    rfl
  have hfile : GetImageUrl sampleWorld.abs "/tmp/fake.jpg" = "/tmp/fake.jpg" := rfl
  have hread : sampleWorld.readFile = oneFile fakeJpeg := rfl
  have hcodec : sampleWorld.codec = noCodec := rfl
  have hmarshal : ∀ data, sampleWorld.marshal data = .ok "request" := fun _ => rfl
  unfold main
  simp only [hkey]
  rw [if_neg (by decide)]
  simp only [sampleArgs, Option.getD, hfile, hread, hcodec, hfit, hmarshal, hex]
  simp [ApiModel, PrintBeautiful]

theorem sentRequests_append (a b : List Event) :
    sentRequests (a ++ b) = sentRequests a ++ sentRequests b := by
  induction a with
  | nil => rfl
  | cons e rest ih =>
    cases e <;> simp [sentRequests, ih]

theorem sentRequests_PrintBeautiful (fn : List Event) :
    sentRequests (PrintBeautiful fn) = sentRequests fn := by
  simp [PrintBeautiful, separator, sentRequests, sentRequests_append]

theorem sentRequests_handleResponse (unmarshal : String → Except String ApiResponse)
    (statusCode : Int) (body : String) :
    sentRequests (handleResponse unmarshal statusCode body).events = [] := by
  unfold handleResponse
  split
  · simp [sentRequests]
  · split
    · simp [sentRequests_PrintBeautiful, sentRequests]
    · split
      · simp [separator, sentRequests]
      · simp [sentRequests_PrintBeautiful, sentRequests]

theorem sentRequests_exchange {Img : Type} (w : World Img) (request : Request) :
    sentRequests (exchange w request).events = [request] := by
  unfold exchange
  split
  · simp [sentRequests, sentRequests_PrintBeautiful]
  · dsimp only
    split <;> split <;>
      simp [sentRequests, sentRequests_append, sentRequests_PrintBeautiful,
        sentRequests_handleResponse]

theorem sentRequests_infoBlock (a b c d e f : String) (m n : Int) (shown : List Event)
    (h : infoBlock a b c d e f m n = some shown) : sentRequests shown = [] := by
  unfold infoBlock at h
  split at h
  · cases h
  · cases h
    simp [sentRequests]

/-- Whatever the command line, `main` sends at most one request, and it is the
one built by `buildRequest`, addressed to `ApiUrl`. -/
theorem main_sentRequests {Img : Type} (w : World Img) (args : CommandLine) :
    ∀ request ∈ sentRequests (main w args).events, request.url = ApiUrl := by
  intro request hreq
  unfold main at hreq
  dsimp only at hreq
  split at hreq
  · simp [sentRequests] at hreq
  · split at hreq
    · simp [separator, sentRequests] at hreq
    · next shown hshown =>
      have hs : sentRequests shown = [] := by
        split at hshown
        · cases hinfo : infoBlock (args.url.getD ApiUrl) (w.getenv ApiKeyEnvName)
              (args.model.getD ApiModel) (args.file.getD "")
              (GetImageUrl w.abs (args.file.getD ""))
              (if args.prompt.getD "" = "" then
                GenPromptTemplateByCount (args.title_count.getD 20) (args.content_count.getD 30)
              else args.prompt.getD "")
              (args.content_count.getD 30) (args.title_count.getD 20) with
          | none => rw [hinfo] at hshown; cases hshown
          | some block =>
            rw [hinfo] at hshown
            cases hshown
            rw [sentRequests_PrintBeautiful]
            exact sentRequests_infoBlock _ _ _ _ _ _ _ _ _ hinfo
        · cases hshown; rfl
      split at hreq
      · simp [sentRequests_append, sentRequests_PrintBeautiful, hs, sentRequests] at hreq
      · split at hreq
        · simp [sentRequests_append, sentRequests_PrintBeautiful, hs, sentRequests] at hreq
        · have hsaved : ∀ (flag : Bool) (uri : String),
              sentRequests (if flag = true then
                PrintBeautiful (.writeFile "base64.txt" uri ::
                  match w.writeFile "base64.txt" uri with
                  | some e => [.print ("写入文件失败： " ++ e ++ "\n")]
                  | none => [.print "图片 base64 编码已保存到 base64.txt 文件中。\n"])
                else []) = [] := by
            intro flag uri
            split
            · rw [sentRequests_PrintBeautiful]
              split <;> simp [sentRequests]
            · rfl
          split at hreq
          · simp [sentRequests_append, sentRequests_PrintBeautiful, hs, hsaved,
              sentRequests] at hreq
          · simp [sentRequests_append, sentRequests_PrintBeautiful, hs, hsaved,
              sentRequests, sentRequests_exchange] at hreq
            rw [hreq]
            rfl

/-- C8 fails on the code: for a response with status 200 or 201 whose body
decodes to an empty `choices` array, the response handling prints the
separator and its first line and then panics on `Choices[0]`; no missing-data
error is signalled. The run of `main` over such a response ends in that panic. -/
theorem empty_choices_panics :
    emptyChoices.Choices = [] ∧
    handleResponse (fun _ => .ok emptyChoices) 200 "\x7b\"choices\": []\x7d"
      = ⟨[separator, .print "模型生成描述成功\n"],
          .panicked "runtime error: index out of range [0] with length 0"⟩ ∧
    handleResponse (fun _ => .ok emptyChoices) 201 "\x7b\x7d"
      = ⟨[separator, .print "模型生成描述成功\n"],
          .panicked "runtime error: index out of range [0] with length 0"⟩ ∧
    (main sampleWorld sampleArgs).exit = .panicked "runtime error: index out of range [0] with length 0" := by
  refine ⟨rfl, ?_, ?_, ?_⟩
  · exact handleResponse_empty_choices _ _ _ emptyChoices (Or.inl rfl) rfl rfl
  · exact handleResponse_empty_choices _ _ _ emptyChoices (Or.inr rfl) rfl rfl
  · rw [sample_main_run]

/-- C9 fails on the code: with `-url http://localhost:8080/v1` on the command
line, the one request `main` sends is addressed to `ApiUrl`, which is not the
flag's value. -/
theorem url_flag_ignored :
    sampleArgs.url = some "http://localhost:8080/v1" ∧
    (sentRequests (main sampleWorld sampleArgs).events).map Request.url = [ApiUrl] ∧
    ApiUrl ≠ "http://localhost:8080/v1" := by
  refine ⟨rfl, ?_, by decide⟩
  rw [sample_main_run]
  simp [sentRequests_append, sentRequests_PrintBeautiful, sentRequests, separator,
    buildRequest]

end YumoImgCaption
